import Mathlib

/-!
Shallow embedding of two DAPHNE runtime kernels:

* `Seq<DenseMatrix<VT>>::apply` from `src/runtime/local/kernels/Seq.h`
  (sequence generation into a dense single-column matrix), and
* `convertCSRMatrixToRowOffsetsMemRef` from
  `src/runtime/local/kernels/ConvertCSRMatrixToRowOffsetsMemRef.h`
  (zero-copy strided view of a CSR matrix's row-offset buffer).

Floating-point values `VT` are modelled exactly over `ℚ` extended with a
NaN element (`Val`), with IEEE-style semantics for the operations the
kernel actually performs on possibly-NaN values: every comparison with
NaN is false and NaN propagates through arithmetic.  C `assert` failures
(fatal aborts) and thrown C++ exceptions (catchable, surfaced to the
caller) are kept distinct in the error type.
-/

/-- The kernel's value type `VT`: a rational number or NaN. -/
inductive Val where
  | nan : Val
  | fin : ℚ → Val
deriving DecidableEq, Repr

namespace Val

/-- C++ `==` on `VT`: any comparison with NaN is false. -/
def beq : Val → Val → Bool
  | nan, _ => false
  | _, nan => false
  | fin a, fin b => decide (a = b)

/-- C++ `<` on `VT`: any comparison with NaN is false. -/
def lt : Val → Val → Bool
  | nan, _ => false
  | _, nan => false
  | fin a, fin b => decide (a < b)

/-- C++ `+` on `VT`: NaN propagates. -/
def add : Val → Val → Val
  | nan, _ => nan
  | _, nan => nan
  | fin a, fin b => fin (a + b)

/-- C++ `-` on `VT`: NaN propagates. -/
def sub : Val → Val → Val
  | nan, _ => nan
  | _, nan => nan
  | fin a, fin b => fin (a - b)

/-- C++ `abs` on `VT`: NaN propagates. -/
def vabs : Val → Val
  | nan => nan
  | fin a => fin |a|

/-- C++ `/` on `VT`.  Division by zero does not yield a finite value; the
kernel only divides by `abs(inc)` after asserting `inc != 0`, so that
branch is unreachable in every reachable execution. -/
def div : Val → Val → Val
  | nan, _ => nan
  | _, nan => nan
  | fin a, fin b => if b = 0 then nan else fin (a / b)

/-- C++ `ceil` on `VT`: NaN propagates. -/
def vceil : Val → Val
  | nan => nan
  | fin a => fin (⌈a⌉ : ℚ)

/-- C++ conversion `VT → size_t` (truncation toward zero; only applied to
nonnegative integral values by the kernel). -/
def toSizeT : Val → ℕ
  | nan => 0
  | fin a => (⌊a⌋).toNat

end Val

/-- The type `DenseMatrix<VT>`: row/column counts and the backing value buffer.
`shrinkNumRows` is a logical shrink that leaves the buffer alone. -/
structure DenseMatrix where
  numRows : ℕ
  numCols : ℕ
  values : List Val
deriving DecidableEq, Repr

/-- The method `DenseMatrix::shrinkNumRows`: logical shrink, no reallocation. -/
def DenseMatrix.shrinkNumRows (m : DenseMatrix) (n : ℕ) : DenseMatrix :=
  { m with numRows := n }

/-- The call `DataObjectFactory::create<DenseMatrix<VT>>(rows, cols, false)`:
allocates without zero-initialisation, so the fresh buffer holds
arbitrary memory contents, modelled by the ambient function `uninit`. -/
def DataObjectFactory.create (numRows numCols : ℕ) (uninit : ℕ → Val) : DenseMatrix :=
  ⟨numRows, numCols, (List.range (numRows * numCols)).map uninit⟩

/-- How a call to `Seq::apply` fails: a C `assert` (fatal abort) or a
thrown `std::runtime_error` (catchable, surfaced to the caller). -/
inductive SeqError where
  | assertFail : String → SeqError
  | thrown : String → SeqError
deriving DecidableEq, Repr

/-- Is this error a thrown exception (surfaced to the caller) rather than
a fatal assertion failure? -/
def SeqError.isThrown : SeqError → Bool
  | assertFail _ => false
  | thrown _ => true

namespace Seq

/-- The count `expectedNumRows = ceil(abs(end-start)/abs(inc)) + 1`, as computed by
the kernel in `VT` arithmetic then converted to `size_t`. -/
def expectedNumRows (start e inc : Val) : ℕ :=
  Val.toSizeT (Val.add (Val.vceil (Val.div (Val.vabs (Val.sub e start)) (Val.vabs inc))) (Val.fin 1))

/-- The fill loop: `allValues[i] = accumulatorValue; accumulatorValue += inc`
for `i = 0 .. n-1`, starting from `acc`. -/
def fill (inc : Val) : ℕ → Val → List Val
  | 0, _ => []
  | n + 1, acc => acc :: fill inc n (Val.add acc inc)

/-- The tail of `Seq::apply` after validation and buffer setup: write the
accumulated values into the buffer (overwriting its first
`expectedNumRows` entries), then apply the tolerance-based boundary
correction with `eps = 1e-13`. -/
def finish (m : DenseMatrix) (expectedNumRows : ℕ) (start e inc : Val) : DenseMatrix :=
  let allValues := fill inc expectedNumRows start ++ m.values.drop expectedNumRows
  let lastValue := allValues.getD (expectedNumRows - 1) Val.nan
  let eps : Val := Val.fin (1 / 10 ^ 13)
  let m1 := { m with values := allValues }
  if Val.lt e start && Val.lt eps (Val.sub e lastValue) then
    m1.shrinkNumRows (expectedNumRows - 1)
  else if Val.lt start e && Val.lt eps (Val.sub lastValue e) then
    m1.shrinkNumRows (expectedNumRows - 1)
  else m1

/-- The kernel `Seq<DenseMatrix<VT>>::apply(res, start, end, inc)`.

The first component of the result is the `res` pointer slot after the
call (unchanged on every error path, since all checks precede the
allocation and all writes), the second the error if any.  `uninit`
supplies the contents of uninitialised freshly allocated memory. -/
def apply (uninit : ℕ → Val) (res : Option DenseMatrix) (start e inc : Val) :
    Option DenseMatrix × Option SeqError :=
  if !Val.beq inc inc then (res, some (SeqError.assertFail "inc cannot be NaN"))
  else if !Val.beq start start then (res, some (SeqError.assertFail "start cannot be NaN"))
  else if !Val.beq e e then (res, some (SeqError.assertFail "end cannot be NaN"))
  else if Val.beq inc (Val.fin 0) then (res, some (SeqError.assertFail "inc should not be zero"))
  else if (Val.lt start e && Val.lt inc (Val.fin 0)) || (Val.lt e start && Val.lt (Val.fin 0) inc) then
    (res, some (SeqError.thrown "The inc cannot lead to the boundary of the sequence"))
  else
    let expected := expectedNumRows start e inc
    let numCols := 1
    match res with
    | none => (some (finish (DataObjectFactory.create expected numCols uninit) expected start e inc), none)
    | some m =>
        if m.numRows = expected then (some (finish m expected start e inc), none)
        else (res, some (SeqError.assertFail "input matrix is not null and may not fit the sequence"))

end Seq

/-- The type `CSRMatrix<T>`: dimensions, the three backing buffers, and the shared
reference counter on the row-offset buffer. -/
structure CSRMatrix where
  numRows : ℕ
  numCols : ℕ
  rowOffsets : List ℕ
  colIdxs : List ℕ
  values : List ℚ
  refCounter : ℕ
deriving DecidableEq, Repr

/-- The method `CSRMatrix::increaseRefCounter`: bump the shared reference count. -/
def CSRMatrix.increaseRefCounter (m : CSRMatrix) : CSRMatrix :=
  { m with refCounter := m.refCounter + 1 }

/-- The descriptor `StridedMemRefType<size_t, 1>`: base and data pointers (modelled as
the buffer they point into), offset, and the single size and stride. -/
structure StridedMemRefSizeT1 where
  basePtr : List ℕ
  data : List ℕ
  offset : ℤ
  sizes0 : ℤ
  strides0 : ℤ
deriving DecidableEq, Repr

/-- Reading element `i` through a rank-1 strided memref:
`data[offset + i * strides[0]]`. -/
def StridedMemRefSizeT1.read (m : StridedMemRefSizeT1) (i : ℕ) : ℕ :=
  m.data.getD (m.offset + (i : ℤ) * m.strides0).toNat 0

/-- The kernel `convertCSRMatrixToRowOffsetsMemRef(input, ctx)`: build the view over
the row-offset buffer and bump its reference count.  The second component
is the matrix after the (const-qualified but counter-mutating) call. -/
def convertCSRMatrixToRowOffsetsMemRef (input : CSRMatrix) :
    StridedMemRefSizeT1 × CSRMatrix :=
  let rowOffsetsMemRef : StridedMemRefSizeT1 :=
    { basePtr := input.rowOffsets
      data := input.rowOffsets
      offset := 0
      sizes0 := (input.numRows : ℤ) + 1
      strides0 := 1 }
  (rowOffsetsMemRef, input.increaseRefCounter)

/-- The spec's formula for the candidate row count:
`expectedCount = ceil(|end - start| / |increment|) + 1`, stated directly
over the rationals for comparison with the code's `Seq.expectedNumRows`. -/
def specExpectedCount (start e inc : ℚ) : ℕ :=
  (⌈|e - start| / |inc|⌉).toNat + 1

/-! ### Basic lemmas about the embedded operations -/

lemma Val.beq_fin (a b : ℚ) : Val.beq (Val.fin a) (Val.fin b) = decide (a = b) := rfl

lemma Val.lt_fin (a b : ℚ) : Val.lt (Val.fin a) (Val.fin b) = decide (a < b) := rfl

lemma Val.sub_fin (a b : ℚ) : Val.sub (Val.fin a) (Val.fin b) = Val.fin (a - b) := rfl

lemma Val.add_fin (a b : ℚ) : Val.add (Val.fin a) (Val.fin b) = Val.fin (a + b) := rfl

/-- On valid inputs the code's `expectedNumRows` computation agrees with
the spec's `ceil(|end - start| / |inc|) + 1`. -/
lemma Seq.expectedNumRows_fin (s e i : ℚ) (hi : i ≠ 0) :
    Seq.expectedNumRows (Val.fin s) (Val.fin e) (Val.fin i) = specExpectedCount s e i := by
  have habs : |i| ≠ 0 := abs_ne_zero.mpr hi
  simp only [Seq.expectedNumRows, specExpectedCount, Val.sub, Val.vabs, Val.div]
  rw [if_neg habs]
  simp only [Val.vceil, Val.add, Val.toSizeT]
  rw [show ((⌈|e - s| / |i|⌉ : ℚ) + 1) = ((⌈|e - s| / |i|⌉ + 1 : ℤ) : ℚ) by push_cast; ring,
    Int.floor_intCast]
  have hc : 0 ≤ ⌈|e - s| / |i|⌉ := Int.ceil_nonneg (div_nonneg (abs_nonneg _) (abs_nonneg _))
  omega

lemma Seq.length_fill (inc : Val) (n : ℕ) (acc : Val) : (Seq.fill inc n acc).length = n := by
  induction n generalizing acc with
  | zero => rfl
  | succ k ih => simpa [Seq.fill] using ih (Val.add acc inc)

lemma Seq.fill_getD (inc acc d : Val) {i n : ℕ} (h : i < n) :
    (Seq.fill inc n acc).getD i d = (fun v => Val.add v inc)^[i] acc := by
  induction n generalizing i acc with
  | zero => omega
  | succ k ih =>
      cases i with
      | zero => rfl
      | succ j =>
          have hj : j < k := by omega
          simpa [Seq.fill, Function.iterate_succ_apply] using ih (Val.add acc inc) hj

lemma Val.iterate_add_fin (i s : ℚ) (k : ℕ) :
    (fun v => Val.add v (Val.fin i))^[k] (Val.fin s) = Val.fin (s + (k : ℚ) * i) := by
  induction k with
  | zero => simp
  | succ m ih =>
      rw [Function.iterate_succ_apply', ih]
      simp [Val.add]
      ring

/-! ### Characterising `Seq.finish` -/

lemma Seq.finish_values (m : DenseMatrix) (n : ℕ) (start e inc : Val) :
    (Seq.finish m n start e inc).values = Seq.fill inc n start ++ m.values.drop n := by
  simp only [Seq.finish, DenseMatrix.shrinkNumRows]
  split_ifs <;> rfl

lemma Seq.finish_numCols (m : DenseMatrix) (n : ℕ) (start e inc : Val) :
    (Seq.finish m n start e inc).numCols = m.numCols := by
  simp only [Seq.finish, DenseMatrix.shrinkNumRows]
  split_ifs <;> rfl

/-- The last accumulated value read back by the kernel, in closed form. -/
lemma Seq.lastValue_fin (m : DenseMatrix) (n : ℕ) (hn : 0 < n) (s i : ℚ) :
    (Seq.fill (Val.fin i) n (Val.fin s) ++ m.values.drop n).getD (n - 1) Val.nan
      = Val.fin (s + ((n - 1 : ℕ) : ℚ) * i) := by
  rw [List.getD_append _ _ _ _ (by rw [Seq.length_fill]; omega)]
  rw [Seq.fill_getD _ _ _ (by omega), Val.iterate_add_fin]

/-- The boundary correction: the row count after `Seq.finish` is
`n - 1` exactly on overshoot by more than `eps = 1e-13`. -/
lemma Seq.finish_numRows (m : DenseMatrix) (n : ℕ) (hn : 0 < n) (s e i : ℚ) :
    (Seq.finish m n (Val.fin s) (Val.fin e) (Val.fin i)).numRows =
      if (e < s ∧ 1 / 10 ^ 13 < e - (s + ((n - 1 : ℕ) : ℚ) * i)) ∨
         (s < e ∧ 1 / 10 ^ 13 < (s + ((n - 1 : ℕ) : ℚ) * i) - e)
      then n - 1 else m.numRows := by
  simp only [Seq.finish, DenseMatrix.shrinkNumRows, Seq.lastValue_fin m n hn s i,
    Val.sub_fin, Val.lt_fin, Bool.and_eq_true, decide_eq_true_eq]
  split_ifs with hA hB hC hC hD <;> first | rfl | tauto

/-! ### Unfolding `Seq.apply` past the validated checks -/

lemma Seq.applyChecks_bool (s e i : ℚ) (h1 : ¬(s < e ∧ i < 0)) (h2 : ¬(e < s ∧ 0 < i)) :
    ((Val.lt (Val.fin s) (Val.fin e) && Val.lt (Val.fin i) (Val.fin 0)) ||
      (Val.lt (Val.fin e) (Val.fin s) && Val.lt (Val.fin 0) (Val.fin i))) = false := by
  simp only [Val.lt_fin, Bool.or_eq_false_iff, Bool.and_eq_false_iff, decide_eq_false_iff_not]
  tauto

lemma Seq.apply_fin_none (uninit : ℕ → Val) (s e i : ℚ) (hi : i ≠ 0)
    (h1 : ¬(s < e ∧ i < 0)) (h2 : ¬(e < s ∧ 0 < i)) :
    Seq.apply uninit none (Val.fin s) (Val.fin e) (Val.fin i) =
      (some (Seq.finish (DataObjectFactory.create (specExpectedCount s e i) 1 uninit)
        (specExpectedCount s e i) (Val.fin s) (Val.fin e) (Val.fin i)), none) := by
  simp only [Seq.apply]
  rw [Seq.applyChecks_bool s e i h1 h2]
  simp [Val.beq_fin, hi, Seq.expectedNumRows_fin s e i hi]

lemma Seq.apply_fin_some (uninit : ℕ → Val) (m : DenseMatrix) (s e i : ℚ) (hi : i ≠ 0)
    (h1 : ¬(s < e ∧ i < 0)) (h2 : ¬(e < s ∧ 0 < i))
    (hm : m.numRows = specExpectedCount s e i) :
    Seq.apply uninit (some m) (Val.fin s) (Val.fin e) (Val.fin i) =
      (some (Seq.finish m (specExpectedCount s e i) (Val.fin s) (Val.fin e) (Val.fin i)),
        none) := by
  simp only [Seq.apply]
  rw [Seq.applyChecks_bool s e i h1 h2]
  simp [Val.beq_fin, hi, Seq.expectedNumRows_fin s e i hi, hm]

lemma Seq.apply_fin_some_mismatch (uninit : ℕ → Val) (m : DenseMatrix) (s e i : ℚ)
    (hi : i ≠ 0) (h1 : ¬(s < e ∧ i < 0)) (h2 : ¬(e < s ∧ 0 < i))
    (hm : m.numRows ≠ specExpectedCount s e i) :
    Seq.apply uninit (some m) (Val.fin s) (Val.fin e) (Val.fin i) =
      (some m, some (SeqError.assertFail
        "input matrix is not null and may not fit the sequence")) := by
  simp only [Seq.apply]
  rw [Seq.applyChecks_bool s e i h1 h2]
  simp [Val.beq_fin, hi, Seq.expectedNumRows_fin s e i hi, hm]

/-- The function `Seq.finish` looks at its buffer argument only through `numRows`,
`numCols` and the part of the value buffer it does not overwrite. -/
lemma Seq.finish_congr (m1 m2 : DenseMatrix) (n : ℕ) (s e i : Val)
    (hr : m1.numRows = m2.numRows) (hc : m1.numCols = m2.numCols)
    (hv : m1.values.drop n = m2.values.drop n) :
    Seq.finish m1 n s e i = Seq.finish m2 n s e i := by
  cases m1 with
  | mk r1 c1 v1 =>
    cases m2 with
    | mk r2 c2 v2 =>
      simp only at hr hc hv
      subst hr; subst hc
      simp only [Seq.finish, DenseMatrix.shrinkNumRows, hv]

/-- A freshly allocated single-column buffer of `n` rows has no contents
beyond the `n` entries the fill loop overwrites. -/
lemma DataObjectFactory.create_values_drop (n : ℕ) (u : ℕ → Val) :
    ((DataObjectFactory.create n 1 u).values).drop n = [] := by
  apply List.drop_eq_nil_of_le
  simp [DataObjectFactory.create]

/-- C4: for every sparse matrix, the Row-Offset View Kernel increments the
backing row-offset buffer's shared reference count by exactly one and
changes nothing else about the matrix (dimensions, row offsets, column
indices and values are unchanged). -/
theorem claim4_convert_increments_refcount_only (input : CSRMatrix) :
    ((convertCSRMatrixToRowOffsetsMemRef input).2).refCounter = input.refCounter + 1 ∧
    ((convertCSRMatrixToRowOffsetsMemRef input).2).numRows = input.numRows ∧
    ((convertCSRMatrixToRowOffsetsMemRef input).2).numCols = input.numCols ∧
    ((convertCSRMatrixToRowOffsetsMemRef input).2).rowOffsets = input.rowOffsets ∧
    ((convertCSRMatrixToRowOffsetsMemRef input).2).colIdxs = input.colIdxs ∧
    ((convertCSRMatrixToRowOffsetsMemRef input).2).values = input.values :=
  ⟨rfl, rfl, rfl, rfl, rfl, rfl⟩

/-- C7: for every sparse matrix with `r` rows, the Row-Offset View Kernel
returns a strided view with offset `0`, one dimension of size `r + 1`,
unit stride, and base/data pointers aliasing the matrix's row-offset
buffer; reading through the view yields exactly the matrix's row-offset
values. -/
theorem claim7_convert_view_zero_copy (input : CSRMatrix) :
    ((convertCSRMatrixToRowOffsetsMemRef input).1).offset = 0 ∧
    ((convertCSRMatrixToRowOffsetsMemRef input).1).sizes0 = (input.numRows : ℤ) + 1 ∧
    ((convertCSRMatrixToRowOffsetsMemRef input).1).strides0 = 1 ∧
    ((convertCSRMatrixToRowOffsetsMemRef input).1).basePtr = input.rowOffsets ∧
    ((convertCSRMatrixToRowOffsetsMemRef input).1).data = input.rowOffsets ∧
    ∀ k : ℕ, ((convertCSRMatrixToRowOffsetsMemRef input).1).read k =
      input.rowOffsets.getD k 0 := by
  refine ⟨rfl, rfl, rfl, rfl, rfl, fun k => ?_⟩
  simp [StridedMemRefSizeT1.read, convertCSRMatrixToRowOffsetsMemRef]

/-- C9: calling the Sequence Kernel twice with identical arguments and no
pre-allocated result buffer produces identical results, whatever the
contents of the uninitialised memory returned by the two allocations. -/
theorem claim9_seq_deterministic (uninit1 uninit2 : ℕ → Val) (start e inc : Val) :
    Seq.apply uninit1 none start e inc = Seq.apply uninit2 none start e inc := by
  simp only [Seq.apply]
  split_ifs <;> try rfl
  rw [Seq.finish_congr (DataObjectFactory.create _ 1 uninit1)
    (DataObjectFactory.create _ 1 uninit2) _ start e inc rfl rfl
    (by rw [DataObjectFactory.create_values_drop, DataObjectFactory.create_values_drop])]

/-- C2 counterexample: calling the Sequence Kernel with `increment = 0`
fails through the fatal C `assert` (an abort), not through a thrown
exception surfaced to the caller, so the failure is not a recoverable
`InvalidArgument` error as the claim states. -/
theorem claim2_counterexample_zero_inc_asserts :
    (Seq.apply (fun _ => Val.nan) none (Val.fin 0) (Val.fin 1) (Val.fin 0)).2 =
        some (SeqError.assertFail "inc should not be zero") ∧
      Option.map SeqError.isThrown
        (Seq.apply (fun _ => Val.nan) none (Val.fin 0) (Val.fin 1) (Val.fin 0)).2 =
        some false := by
  constructor <;> rfl

/-- C2 amended: if `increment` is zero, or any of `start`, `end`,
`increment` is NaN, the Sequence Kernel fails, but through a fatal
assertion-level check (a C `assert`), not through an error surfaced to
the caller; the `res` slot is untouched. -/
theorem claim2_seq_zero_or_nan_assert (uninit : ℕ → Val) (res : Option DenseMatrix)
    (start e inc : Val)
    (h : inc = Val.fin 0 ∨ start = Val.nan ∨ e = Val.nan ∨ inc = Val.nan) :
    ∃ msg, Seq.apply uninit res start e inc = (res, some (SeqError.assertFail msg)) := by
  rcases inc with _ | iq
  · exact ⟨"inc cannot be NaN", rfl⟩
  rcases start with _ | sq
  · exact ⟨"start cannot be NaN", by simp [Seq.apply, Val.beq]⟩
  rcases e with _ | eq
  · exact ⟨"end cannot be NaN", by simp [Seq.apply, Val.beq]⟩
  rcases h with h | h | h | h
  · obtain rfl : iq = 0 := by injection h
    exact ⟨"inc should not be zero", by simp [Seq.apply, Val.beq]⟩
  · exact absurd h (by simp)
  · exact absurd h (by simp)
  · exact absurd h (by simp)

/-- C2 amended witness: the three NaN positions and the zero increment
each produce an assertion-level failure at a concrete input. -/
theorem claim2_seq_zero_or_nan_assert_witness :
    ∃ msg, Seq.apply (fun _ => Val.nan) none (Val.fin 2) (Val.fin 5) (Val.fin 0) =
      (none, some (SeqError.assertFail msg)) :=
  claim2_seq_zero_or_nan_assert (fun _ => Val.nan) none (Val.fin 2) (Val.fin 5)
    (Val.fin 0) (Or.inl rfl)

/-- C5: if `start < end` with a negative increment, or `start > end` with
a positive increment, the Sequence Kernel throws (the error the spec
calls `InvalidArgument`, surfaced to the caller) before any allocation,
and the `res` slot is unchanged. -/
theorem claim5_seq_direction_mismatch_thrown (uninit : ℕ → Val) (res : Option DenseMatrix)
    (s e i : ℚ) (h : (s < e ∧ i < 0) ∨ (e < s ∧ 0 < i)) :
    Seq.apply uninit res (Val.fin s) (Val.fin e) (Val.fin i) =
      (res, some (SeqError.thrown "The inc cannot lead to the boundary of the sequence")) := by
  have hi : i ≠ 0 := by
    rcases h with ⟨_, h2⟩ | ⟨_, h2⟩
    · exact ne_of_lt h2
    · exact ne_of_gt h2
  rcases h with ⟨ha, hb⟩ | ⟨ha, hb⟩ <;>
    simp [Seq.apply, Val.beq_fin, Val.lt_fin, hi, ha, hb]

/-- On the validated path, the kernel succeeds; the produced matrix has
the accumulated values in rows `0..expectedCount-1` and its row count is
`expectedCount - 1` exactly when the last accumulated value overshoots
`end` by more than `eps` in the direction of travel. -/
lemma Seq.apply_fin_valid_spec (uninit : ℕ → Val) (res : Option DenseMatrix) (s e i : ℚ)
    (hi : i ≠ 0) (h1 : ¬(s < e ∧ i < 0)) (h2 : ¬(e < s ∧ 0 < i))
    (hres : res = none ∨ ∃ m, res = some m ∧ m.numRows = specExpectedCount s e i) :
    ∃ m', Seq.apply uninit res (Val.fin s) (Val.fin e) (Val.fin i) = (some m', none) ∧
      m'.numRows = (if (e < s ∧ 1 / 10 ^ 13 <
            e - (s + ((specExpectedCount s e i - 1 : ℕ) : ℚ) * i)) ∨
          (s < e ∧ 1 / 10 ^ 13 <
            (s + ((specExpectedCount s e i - 1 : ℕ) : ℚ) * i) - e)
        then specExpectedCount s e i - 1 else specExpectedCount s e i) ∧
      ∀ k, k < specExpectedCount s e i →
        m'.values.getD k Val.nan = (fun v => Val.add v (Val.fin i))^[k] (Val.fin s) := by
  have hn : 0 < specExpectedCount s e i := Nat.succ_pos _
  rcases hres with rfl | ⟨m, rfl, hm⟩
  · refine ⟨_, Seq.apply_fin_none uninit s e i hi h1 h2, ?_, ?_⟩
    · rw [Seq.finish_numRows _ _ hn]
      rfl
    · intro k hk
      rw [Seq.finish_values, List.getD_append _ _ _ _ (by rw [Seq.length_fill]; omega)]
      exact Seq.fill_getD _ _ _ hk
  · refine ⟨_, Seq.apply_fin_some uninit m s e i hi h1 h2 hm, ?_, ?_⟩
    · rw [Seq.finish_numRows _ _ hn, hm]
    · intro k hk
      rw [Seq.finish_values, List.getD_append _ _ _ _ (by rw [Seq.length_fill]; omega)]
      exact Seq.fill_getD _ _ _ hk

/-- C1: on every valid call the result is truncated to
`expectedCount - 1` rows iff the sequence is descending and
`end - lastValue > eps`, or ascending and `lastValue - end > eps`, with
`eps = 1e-13` and `lastValue` the last accumulated value
`start + (expectedCount - 1) * inc`; the row count never exceeds
`expectedCount`, so no row is ever added on undershoot. -/
theorem claim1_seq_boundary_correction (uninit : ℕ → Val) (res : Option DenseMatrix)
    (s e i : ℚ) (hi : i ≠ 0) (h1 : ¬(s < e ∧ i < 0)) (h2 : ¬(e < s ∧ 0 < i))
    (hres : res = none ∨ ∃ m, res = some m ∧ m.numRows = specExpectedCount s e i) :
    ∃ m', Seq.apply uninit res (Val.fin s) (Val.fin e) (Val.fin i) = (some m', none) ∧
      (m'.numRows = specExpectedCount s e i - 1 ↔
        ((e < s ∧ 1 / 10 ^ 13 <
            e - (s + ((specExpectedCount s e i - 1 : ℕ) : ℚ) * i)) ∨
         (s < e ∧ 1 / 10 ^ 13 <
            (s + ((specExpectedCount s e i - 1 : ℕ) : ℚ) * i) - e))) ∧
      m'.numRows ≤ specExpectedCount s e i := by
  obtain ⟨m', heq, hrows, -⟩ := Seq.apply_fin_valid_spec uninit res s e i hi h1 h2 hres
  have hn : 0 < specExpectedCount s e i := Nat.succ_pos _
  refine ⟨m', heq, ?_, ?_⟩
  · rw [hrows]
    split_ifs with hC
    · exact iff_of_true rfl hC
    · exact iff_of_false (by omega) hC
  · rw [hrows]
    split_ifs <;> omega

/-- C1 witness: `start = 0, end = 1, increment = 0.3` is a valid call on
which the overshoot condition holds, so the result is shrunk by one row. -/
theorem claim1_seq_boundary_correction_witness :
    ∃ m', Seq.apply (fun _ => Val.nan) none (Val.fin 0) (Val.fin 1) (Val.fin (3 / 10)) =
        (some m', none) ∧
      (m'.numRows = specExpectedCount 0 1 (3 / 10) - 1 ↔
        (((1 : ℚ) < 0 ∧ 1 / 10 ^ 13 <
            1 - ((0 : ℚ) + ((specExpectedCount 0 1 (3 / 10) - 1 : ℕ) : ℚ) * (3 / 10))) ∨
         ((0 : ℚ) < 1 ∧ 1 / 10 ^ 13 <
            ((0 : ℚ) + ((specExpectedCount 0 1 (3 / 10) - 1 : ℕ) : ℚ) * (3 / 10)) - 1))) ∧
      m'.numRows ≤ specExpectedCount 0 1 (3 / 10) :=
  claim1_seq_boundary_correction (fun _ => Val.nan) none 0 1 (3 / 10)
    (by norm_num) (by norm_num) (by norm_num) (Or.inl rfl)

/-- C3: the candidate row count computed by the kernel equals the spec's
`ceil(|end - start| / |increment|) + 1`; a null `res` is replaced by a
freshly allocated single-column buffer with exactly that many rows, and a
non-null `res` whose row count differs fails the fatal assertion with the
`res` slot unchanged. -/
theorem claim3_seq_buffer_contract (uninit : ℕ → Val) (s e i : ℚ) (hi : i ≠ 0)
    (h1 : ¬(s < e ∧ i < 0)) (h2 : ¬(e < s ∧ 0 < i)) :
    Seq.expectedNumRows (Val.fin s) (Val.fin e) (Val.fin i) = specExpectedCount s e i ∧
    (∃ m', Seq.apply uninit none (Val.fin s) (Val.fin e) (Val.fin i) = (some m', none) ∧
      m'.numCols = 1 ∧ m'.values.length = specExpectedCount s e i) ∧
    (∀ m : DenseMatrix, m.numRows ≠ specExpectedCount s e i →
      Seq.apply uninit (some m) (Val.fin s) (Val.fin e) (Val.fin i) =
        (some m, some (SeqError.assertFail
          "input matrix is not null and may not fit the sequence"))) := by
  refine ⟨Seq.expectedNumRows_fin s e i hi,
    ⟨_, Seq.apply_fin_none uninit s e i hi h1 h2, ?_, ?_⟩,
    fun m hm => Seq.apply_fin_some_mismatch uninit m s e i hi h1 h2 hm⟩
  · rw [Seq.finish_numCols]
    rfl
  · rw [Seq.finish_values, DataObjectFactory.create_values_drop]
    simp [Seq.length_fill]

/-- C3 witness: `start = 0, end = 10, increment = 1` allocates an
11-row single-column buffer, and a 7-row pre-allocated buffer fails the
fatal assertion. -/
theorem claim3_seq_buffer_contract_witness :
    Seq.expectedNumRows (Val.fin 0) (Val.fin 10) (Val.fin 1) = specExpectedCount 0 10 1 ∧
    (∃ m', Seq.apply (fun _ => Val.nan) none (Val.fin 0) (Val.fin 10) (Val.fin 1) =
        (some m', none) ∧
      m'.numCols = 1 ∧ m'.values.length = specExpectedCount 0 10 1) ∧
    (∀ m : DenseMatrix, m.numRows ≠ specExpectedCount 0 10 1 →
      Seq.apply (fun _ => Val.nan) (some m) (Val.fin 0) (Val.fin 10) (Val.fin 1) =
        (some m, some (SeqError.assertFail
          "input matrix is not null and may not fit the sequence"))) :=
  claim3_seq_buffer_contract (fun _ => Val.nan) 0 10 1
    (by norm_num) (by norm_num) (by norm_num)

/-- C6: on every valid call, row `k` of the result holds the `k`-fold
accumulation `start + inc + ... + inc` (`value = start`, then
`value += inc` after each write); in particular the first element equals
`start` exactly. -/
theorem claim6_seq_accumulation (uninit : ℕ → Val) (res : Option DenseMatrix)
    (s e i : ℚ) (hi : i ≠ 0) (h1 : ¬(s < e ∧ i < 0)) (h2 : ¬(e < s ∧ 0 < i))
    (hres : res = none ∨ ∃ m, res = some m ∧ m.numRows = specExpectedCount s e i) :
    ∃ m', Seq.apply uninit res (Val.fin s) (Val.fin e) (Val.fin i) = (some m', none) ∧
      (∀ k, k < specExpectedCount s e i →
        m'.values.getD k Val.nan = (fun v => Val.add v (Val.fin i))^[k] (Val.fin s)) ∧
      m'.values.getD 0 Val.nan = Val.fin s := by
  obtain ⟨m', heq, -, hvals⟩ := Seq.apply_fin_valid_spec uninit res s e i hi h1 h2 hres
  exact ⟨m', heq, hvals, by simpa using hvals 0 (Nat.succ_pos _)⟩

/-- C6 witness: at `start = 5, end = 0, increment = -1` every row is the
corresponding accumulation and the first element is exactly `5`. -/
theorem claim6_seq_accumulation_witness :
    ∃ m', Seq.apply (fun _ => Val.nan) none (Val.fin 5) (Val.fin 0) (Val.fin (-1)) =
        (some m', none) ∧
      (∀ k, k < specExpectedCount 5 0 (-1) →
        m'.values.getD k Val.nan = (fun v => Val.add v (Val.fin (-1)))^[k] (Val.fin 5)) ∧
      m'.values.getD 0 Val.nan = Val.fin 5 :=
  claim6_seq_accumulation (fun _ => Val.nan) none 5 0 (-1)
    (by norm_num) (by norm_num) (by norm_num) (Or.inl rfl)

/-- C8: with `start == end` and any nonzero non-NaN increment the call
succeeds with no truncation: the expected count is `1` and the result is
the degenerate single-element sequence containing `start`. -/
theorem claim8_seq_degenerate (uninit : ℕ → Val) (res : Option DenseMatrix) (s i : ℚ)
    (hi : i ≠ 0)
    (hres : res = none ∨ ∃ m, res = some m ∧ m.numRows = 1) :
    specExpectedCount s s i = 1 ∧
    ∃ m', Seq.apply uninit res (Val.fin s) (Val.fin s) (Val.fin i) = (some m', none) ∧
      m'.numRows = 1 ∧ m'.values.getD 0 Val.nan = Val.fin s := by
  have hn1 : specExpectedCount s s i = 1 := by simp [specExpectedCount]
  have h1 : ¬(s < s ∧ i < 0) := fun h => lt_irrefl s h.1
  have h2 : ¬(s < s ∧ 0 < i) := fun h => lt_irrefl s h.1
  obtain ⟨m', heq, hrows, hvals⟩ :=
    Seq.apply_fin_valid_spec uninit res s s i hi h1 h2 (by rwa [hn1])
  have hC : ¬((s < s ∧ 1 / 10 ^ 13 < s - (s + ((specExpectedCount s s i - 1 : ℕ) : ℚ) * i)) ∨
      (s < s ∧ 1 / 10 ^ 13 < (s + ((specExpectedCount s s i - 1 : ℕ) : ℚ) * i) - s)) := by
    rintro (⟨h, -⟩ | ⟨h, -⟩) <;> exact lt_irrefl s h
  rw [if_neg hC, hn1] at hrows
  refine ⟨hn1, m', heq, hrows, ?_⟩
  simpa using hvals 0 (Nat.succ_pos _)

/-- C8 witness: `start = end = 7` with `increment = -2` yields the
single-element sequence `[7]`. -/
theorem claim8_seq_degenerate_witness :
    specExpectedCount 7 7 (-2) = 1 ∧
    ∃ m', Seq.apply (fun _ => Val.nan) none (Val.fin 7) (Val.fin 7) (Val.fin (-2)) =
        (some m', none) ∧
      m'.numRows = 1 ∧ m'.values.getD 0 Val.nan = Val.fin 7 :=
  claim8_seq_degenerate (fun _ => Val.nan) none 7 (-2) (by norm_num) (Or.inl rfl)

/-- C10: on a valid call with a non-null pre-allocated buffer of the
expected row count (and its `expectedCount` single-column elements),
every element is overwritten, so the result is independent of the
buffer's prior contents: two runs on buffers that differ only in prior
contents yield identical results. -/
theorem claim10_seq_overwrites_prior_contents (uninit : ℕ → Val) (s e i : ℚ)
    (hi : i ≠ 0) (h1 : ¬(s < e ∧ i < 0)) (h2 : ¬(e < s ∧ 0 < i))
    (m1 m2 : DenseMatrix)
    (hm1 : m1.numRows = specExpectedCount s e i)
    (hm2 : m2.numRows = specExpectedCount s e i)
    (hc1 : m1.numCols = 1) (hc2 : m2.numCols = 1)
    (hl1 : m1.values.length = specExpectedCount s e i)
    (hl2 : m2.values.length = specExpectedCount s e i) :
    Seq.apply uninit (some m1) (Val.fin s) (Val.fin e) (Val.fin i) =
      Seq.apply uninit (some m2) (Val.fin s) (Val.fin e) (Val.fin i) := by
  rw [Seq.apply_fin_some uninit m1 s e i hi h1 h2 hm1,
    Seq.apply_fin_some uninit m2 s e i hi h1 h2 hm2,
    Seq.finish_congr m1 m2 (specExpectedCount s e i) _ _ _
      (hm1.trans hm2.symm) (hc1.trans hc2.symm)
      (by rw [List.drop_eq_nil_of_le hl1.le, List.drop_eq_nil_of_le hl2.le])]

/-- C10 witness: two 3-row buffers with different prior contents produce
identical results for `seq(0, 2, 1)`. -/
theorem claim10_seq_overwrites_prior_contents_witness :
    Seq.apply (fun _ => Val.nan)
        (some ⟨3, 1, [Val.fin 9, Val.fin 8, Val.fin 7]⟩)
        (Val.fin 0) (Val.fin 2) (Val.fin 1) =
      Seq.apply (fun _ => Val.nan)
        (some ⟨3, 1, [Val.fin 0, Val.fin 0, Val.fin 0]⟩)
        (Val.fin 0) (Val.fin 2) (Val.fin 1) :=
  claim10_seq_overwrites_prior_contents (fun _ => Val.nan) 0 2 1
    (by norm_num) (by norm_num) (by norm_num)
    ⟨3, 1, [Val.fin 9, Val.fin 8, Val.fin 7]⟩
    ⟨3, 1, [Val.fin 0, Val.fin 0, Val.fin 0]⟩
    (by norm_num [specExpectedCount]; rfl) (by norm_num [specExpectedCount]; rfl) rfl rfl
    (by norm_num [specExpectedCount]; rfl) (by norm_num [specExpectedCount]; rfl)

/-- C5 witness: `start = 1, end = 0, increment = 1` throws with the
`res` slot left untouched. -/
theorem claim5_seq_direction_mismatch_thrown_witness :
    Seq.apply (fun _ => Val.nan) none (Val.fin 1) (Val.fin 0) (Val.fin 1) =
      (none, some (SeqError.thrown "The inc cannot lead to the boundary of the sequence")) :=
  claim5_seq_direction_mismatch_thrown (fun _ => Val.nan) none 1 0 1
    (Or.inr ⟨by norm_num, by norm_num⟩)
